import Mathlib

/-!
# Verification of the chip8 interpreter core

A shallow embedding of the CHIP-8 interpreter found in chip8_core/src/lib.rs.

Conventions of the embedding:
* Machine integers (u8, u16, usize) become Nat; wherever the Rust code
  performs wrapping arithmetic (wrapping_add, overflowing_add, the release
  semantics of the arithmetic operators on u8/u16) the embedding takes the
  result modulo 2^8 or 2^16 explicitly.
* Fixed-size arrays ([u8; 4096], [bool; 2048], [bool; 16]) become total
  functions Nat → Nat / Nat → Bool together with an explicit bounds check
  at every place the Rust code indexes the array; an out-of-bounds index,
  which in Rust is a runtime panic, becomes the error value
  Chip8Error.indexOutOfBounds.  Likewise Option::unwrap on None becomes
  Chip8Error.unwrapNone, ArrayVec::push beyond capacity becomes
  Chip8Error.capacityOverflow, and the todo unimplemented-opcode arm of the
  dispatch match becomes Chip8Error.unimplementedOpcode.  All of these are
  uncontrolled runtime faults in the Rust source; the interpreter there
  offers no error channel (tick and load_rom return unit).
* The register file v is indexed only with 4-bit nibbles produced by the
  instruction decoder (always < 16), so it is kept as a total function.
* The bounded call stack (ArrayVec<u16, 16>) becomes a List Nat whose head
  is the top of the stack, with the capacity check of ArrayVec::push made
  explicit.
* The thread RNG used by opcode CXNN is modelled as an ambient stream of
  bytes carried in the state (rand_seq) together with a cursor (rand_idx);
  each execution of CXNN consumes one byte of the stream.
-/

def PIXELS_PER_ROW : Nat := 64
def PIXELS_PER_COLUMN : Nat := 32
def PIXELS_PER_SCREEN : Nat := PIXELS_PER_COLUMN * PIXELS_PER_ROW
def STACK_SIZE : Nat := 16
def RAM_SIZE : Nat := 4096
def ROM_INITIAL_POSITION : Nat := 0x200
def FONT_INITIAL_POSITION : Nat := 0x50

def FONT_SET : List Nat := [
  0xF0, 0x90, 0x90, 0x90, 0xF0, -- 0
  0x20, 0x60, 0x20, 0x20, 0x70, -- 1
  0xF0, 0x10, 0xF0, 0x80, 0xF0, -- 2
  0xF0, 0x10, 0xF0, 0x10, 0xF0, -- 3
  0x90, 0x90, 0xF0, 0x10, 0x10, -- 4
  0xF0, 0x80, 0xF0, 0x10, 0xF0, -- 5
  0xF0, 0x80, 0xF0, 0x90, 0xF0, -- 6
  0xF0, 0x10, 0x20, 0x40, 0x40, -- 7
  0xF0, 0x90, 0xF0, 0x90, 0xF0, -- 8
  0xF0, 0x90, 0xF0, 0x10, 0xF0, -- 9
  0xF0, 0x90, 0xF0, 0x90, 0x90, -- A
  0xE0, 0x90, 0xE0, 0x90, 0xE0, -- B
  0xF0, 0x80, 0x80, 0x80, 0xF0, -- C
  0xE0, 0x90, 0x90, 0x90, 0xE0, -- D
  0xF0, 0x80, 0xF0, 0x80, 0xF0, -- E
  0xF0, 0x80, 0xF0, 0x80, 0x80  -- F
]

/-- The double-buffered 16-key keypad (struct Keypad). -/
structure Keypad where
  previous_frame_keys : Nat → Bool
  current_frame_keys : Nat → Bool

/-- Keypad::update_keys: previous ← current, current ← new frame. -/
def Keypad.update_keys (kp : Keypad) (new_frame : Nat → Bool) : Keypad :=
  { previous_frame_keys := kp.current_frame_keys, current_frame_keys := new_frame }

/-- Keypad::first_released_keypress: position of the first index whose key
went from pressed in the previous frame to not pressed in the current one. -/
def Keypad.first_released_keypress (kp : Keypad) : Option Nat :=
  (List.range 16).find? fun k =>
    kp.previous_frame_keys k && !(kp.current_frame_keys k)

/-- Keypad::first_pressed_keypress: position of the first index whose key is
down in the current frame (no reference to the previous frame). -/
def Keypad.first_pressed_keypress (kp : Keypad) : Option Nat :=
  (List.range 16).find? fun k => kp.current_frame_keys k

/-- enum NextInstruction: the control-flow directive an opcode handler
returns to the stepping routine. -/
inductive NextInstruction where
  | Next : NextInstruction
  | Skip : NextInstruction
  | Jump : Nat → NextInstruction
  | Stay : NextInstruction
deriving DecidableEq

/-- NextInstruction::skip_if. -/
def NextInstruction.skip_if (condition : Bool) : NextInstruction :=
  if condition then NextInstruction.Skip else NextInstruction.Next

/-- The runtime faults of the Rust source, reified.  Each constructor marks
one way the Rust code panics (it has no error-return channel). -/
inductive Chip8Error where
  | indexOutOfBounds : Chip8Error      -- array/slice index or range out of bounds
  | unwrapNone : Chip8Error            -- Option::unwrap on None (stack pop)
  | capacityOverflow : Chip8Error      -- ArrayVec::push beyond capacity 16
  | unimplementedOpcode : Chip8Error   -- the todo arm of the dispatch match
deriving DecidableEq

/-- struct Chip8: the whole machine state. -/
structure Chip8 where
  memory : Nat → Nat
  screen : Nat → Bool
  pc : Nat
  i : Nat
  stack : List Nat
  delay_timer : Nat
  sound_timer : Nat
  v : Nat → Nat
  should_redraw : Bool
  keypad : Keypad
  rand_seq : Nat → Nat
  rand_idx : Nat

/-- Point update of a register file / memory function. -/
def updf (f : Nat → Nat) (idx val : Nat) : Nat → Nat :=
  fun k => if k = idx then val else f k

/-- Chip8::new: font written at FONT_INITIAL_POSITION, pc = 0x200,
everything else zeroed.  The RNG stream is a parameter of the model. -/
def Chip8.new (rand_seq : Nat → Nat) : Chip8 :=
  { memory := fun a =>
      if FONT_INITIAL_POSITION ≤ a ∧ a < FONT_INITIAL_POSITION + FONT_SET.length
      then FONT_SET.getD (a - FONT_INITIAL_POSITION) 0 else 0
    screen := fun _ => false
    pc := 0x200
    i := 0
    stack := []
    delay_timer := 0
    sound_timer := 0
    v := fun _ => 0
    should_redraw := false
    keypad := { previous_frame_keys := fun _ => false, current_frame_keys := fun _ => false }
    rand_seq := rand_seq
    rand_idx := 0 }

/-- Chip8::load_rom: copy the rom into memory[0x200 .. 0x200+len].  The Rust
slice expression memory[start..end] panics when end exceeds RAM_SIZE; that
panic is the indexOutOfBounds error here. -/
def Chip8.load_rom (s : Chip8) (rom : List Nat) : Except Chip8Error Chip8 :=
  let start := 0x200
  let stop := 0x200 + rom.length
  if stop ≤ RAM_SIZE then
    Except.ok { s with memory := fun a =>
      if start ≤ a ∧ a < stop then rom.getD (a - start) 0 else s.memory a }
  else
    Except.error Chip8Error.indexOutOfBounds

/-- decode_instruction_into_nibbles. -/
def decode_instruction_into_nibbles (instruction : Nat) : Nat × Nat × Nat × Nat :=
  ((instruction &&& 0xF000) >>> 12,
   (instruction &&& 0x0F00) >>> 8,
   (instruction &&& 0x00F0) >>> 4,
   instruction &&& 0x000F)

/-- convert_to_binary_coded_decimal, literally as written in the source
(units first, then hundreds from num - units, then the middle digit). -/
def convert_to_binary_coded_decimal (num : Nat) : Nat × Nat × Nat :=
  let units := num % 10
  let hundreds := (num - units) / 100
  let decimals := (num - hundreds * 100 - units) / 10
  (hundreds, decimals, units)

/-- point_from_index. -/
def point_from_index (index : Nat) : Nat × Nat :=
  (index / PIXELS_PER_ROW, index % PIXELS_PER_ROW)

/-- index_from_point. -/
def index_from_point (p : Nat × Nat) : Nat :=
  p.1 * PIXELS_PER_ROW + p.2

/- ## The opcode handlers.
Each handler returns the updated state together with its NextInstruction
directive, or the Chip8Error naming the panic the Rust code would raise. -/

abbrev HandlerResult := Except Chip8Error (Chip8 × NextInstruction)

/-- 00E0 - clear screen. -/
def execute_00e0 (s : Chip8) : HandlerResult :=
  Except.ok ({ s with screen := fun _ => false, should_redraw := true },
    NextInstruction.Next)

/-- 00EE - return: pop the stack (unwrap panics when it is empty). -/
def execute_00ee (s : Chip8) : HandlerResult :=
  match s.stack with
  | [] => Except.error Chip8Error.unwrapNone
  | addr :: rest =>
    Except.ok ({ s with stack := rest }, NextInstruction.Jump addr)

/-- 1NNN - jump. -/
def execute_1nnn (s : Chip8) (nnn : Nat) : HandlerResult :=
  Except.ok (s, NextInstruction.Jump nnn)

/-- 2NNN - call: push the (already advanced) pc; ArrayVec::push panics when
the stack already holds STACK_SIZE entries. -/
def execute_2nnn (s : Chip8) (nnn : Nat) : HandlerResult :=
  if s.stack.length < STACK_SIZE then
    Except.ok ({ s with stack := s.pc :: s.stack }, NextInstruction.Jump nnn)
  else
    Except.error Chip8Error.capacityOverflow

/-- 3XNN - skip if VX == NN. -/
def execute_3xnn (s : Chip8) (x nn : Nat) : HandlerResult :=
  Except.ok (s, NextInstruction.skip_if (s.v x == nn))

/-- 4XNN - skip if VX != NN. -/
def execute_4xnn (s : Chip8) (x nn : Nat) : HandlerResult :=
  Except.ok (s, NextInstruction.skip_if (s.v x != nn))

/-- 5XY0 - skip if VX == VY. -/
def execute_5xy0 (s : Chip8) (x y : Nat) : HandlerResult :=
  Except.ok (s, NextInstruction.skip_if (s.v x == s.v y))

/-- 6XNN - set VX to NN. -/
def execute_6xnn (s : Chip8) (x nn : Nat) : HandlerResult :=
  Except.ok ({ s with v := updf s.v x nn }, NextInstruction.Next)

/-- 7XNN - add NN to VX, wrapping (u8::wrapping_add). -/
def execute_7xnn (s : Chip8) (x nn : Nat) : HandlerResult :=
  Except.ok ({ s with v := updf s.v x ((s.v x + nn) % 256) }, NextInstruction.Next)

/-- 8XY0 - copy VY into VX. -/
def execute_8xy0 (s : Chip8) (x y : Nat) : HandlerResult :=
  Except.ok ({ s with v := updf s.v x (s.v y) }, NextInstruction.Next)

/-- 8XY1 - VX |= VY, then VF = 0. -/
def execute_8xy1 (s : Chip8) (x y : Nat) : HandlerResult :=
  Except.ok ({ s with v := updf (updf s.v x (s.v x ||| s.v y)) 0xF 0 },
    NextInstruction.Next)

/-- 8XY2 - VX &= VY, then VF = 0. -/
def execute_8xy2 (s : Chip8) (x y : Nat) : HandlerResult :=
  Except.ok ({ s with v := updf (updf s.v x (s.v x &&& s.v y)) 0xF 0 },
    NextInstruction.Next)

/-- 8XY3 - VX ^= VY, then VF = 0. -/
def execute_8xy3 (s : Chip8) (x y : Nat) : HandlerResult :=
  Except.ok ({ s with v := updf (updf s.v x (s.v x ^^^ s.v y)) 0xF 0 },
    NextInstruction.Next)

/-- 8XY4 - VX += VY with carry into VF (u8::overflowing_add). -/
def execute_8xy4 (s : Chip8) (x y : Nat) : HandlerResult :=
  let result := (s.v x + s.v y) % 256
  let overflowed := 256 ≤ s.v x + s.v y
  Except.ok
    ({ s with v := updf (updf s.v x result) 0xF (if overflowed then 1 else 0) },
     NextInstruction.Next)

/-- 8XY5 - VX -= VY; VF = 0 on borrow, 1 otherwise (u8::overflowing_sub). -/
def execute_8xy5 (s : Chip8) (x y : Nat) : HandlerResult :=
  let result := (s.v x + 256 - s.v y % 256) % 256
  let underflowed := s.v x < s.v y
  Except.ok
    ({ s with v := updf (updf s.v x result) 0xF (if underflowed then 0 else 1) },
     NextInstruction.Next)

/-- 8XY6 - VX = VY, then VX >>= 1, VF = the bit shifted out. -/
def execute_8xy6 (s : Chip8) (x y : Nat) : HandlerResult :=
  let v1 := updf s.v x (s.v y)
  let rotated_bit := v1 x &&& 0x1
  let v2 := updf v1 x (v1 x >>> 1)
  Except.ok ({ s with v := updf v2 0xF rotated_bit }, NextInstruction.Next)

/-- 8XY7 - VX = VY - VX; VF = 0 on borrow, 1 otherwise. -/
def execute_8xy7 (s : Chip8) (x y : Nat) : HandlerResult :=
  let result := (s.v y + 256 - s.v x % 256) % 256
  let underflowed := s.v y < s.v x
  Except.ok
    ({ s with v := updf (updf s.v x result) 0xF (if underflowed then 0 else 1) },
     NextInstruction.Next)

/-- 8XYE - VX = VY, then VX <<= 1 (wrapping at 8 bits), VF = bit 7 of the
copied value. -/
def execute_8xye (s : Chip8) (x y : Nat) : HandlerResult :=
  let v1 := updf s.v x (s.v y)
  let rotated_bit := (v1 x >>> 7) &&& 0x1
  let v2 := updf v1 x ((v1 x <<< 1) % 256)
  Except.ok ({ s with v := updf v2 0xF rotated_bit }, NextInstruction.Next)

/-- ANNN - set I. -/
def execute_annn (s : Chip8) (nnn : Nat) : HandlerResult :=
  Except.ok ({ s with i := nnn }, NextInstruction.Next)

/-- BNNN - jump to NNN + V0. -/
def execute_bnnn (s : Chip8) (nnn : Nat) : HandlerResult :=
  Except.ok (s, NextInstruction.Jump (nnn + s.v 0x0))

/-- CXNN - VX = random byte AND NN; the thread RNG is the ambient stream. -/
def execute_cxnn (s : Chip8) (x nn : Nat) : HandlerResult :=
  let random := s.rand_seq s.rand_idx % 256
  Except.ok ({ s with v := updf s.v x (random &&& nn), rand_idx := s.rand_idx + 1 },
    NextInstruction.Next)

/-- EX9E - skip if the key with index VX is down; the Rust code indexes the
16-entry array current_frame_keys directly with the 8-bit VX. -/
def execute_ex9e (s : Chip8) (x : Nat) : HandlerResult :=
  if s.v x < 16 then
    Except.ok (s, NextInstruction.skip_if (s.keypad.current_frame_keys (s.v x)))
  else
    Except.error Chip8Error.indexOutOfBounds

/-- EXA1 - skip if the key with index VX is not down. -/
def execute_exa1 (s : Chip8) (x : Nat) : HandlerResult :=
  if s.v x < 16 then
    Except.ok (s, NextInstruction.skip_if (!(s.keypad.current_frame_keys (s.v x))))
  else
    Except.error Chip8Error.indexOutOfBounds

/-- FX07 - VX = delay timer. -/
def execute_fx07 (s : Chip8) (x : Nat) : HandlerResult :=
  Except.ok ({ s with v := updf s.v x s.delay_timer }, NextInstruction.Next)

/-- FX15 - delay timer = VX. -/
def execute_fx15 (s : Chip8) (x : Nat) : HandlerResult :=
  Except.ok ({ s with delay_timer := s.v x }, NextInstruction.Next)

/-- FX18 - sound timer = VX. -/
def execute_fx18 (s : Chip8) (x : Nat) : HandlerResult :=
  Except.ok ({ s with sound_timer := s.v x }, NextInstruction.Next)

/-- FX1E - I += VX (u16 wrapping in release builds). -/
def execute_fx1e (s : Chip8) (x : Nat) : HandlerResult :=
  Except.ok ({ s with i := (s.i + s.v x) % 65536 }, NextInstruction.Next)

/-- FX0A - wait for a key: completes with Next when first_pressed_keypress
finds a key down in the current frame, writing its index into VX; otherwise
returns Stay so the same instruction is refetched. -/
def execute_fx0a (s : Chip8) (x : Nat) : HandlerResult :=
  match s.keypad.first_pressed_keypress with
  | some key => Except.ok ({ s with v := updf s.v x key }, NextInstruction.Next)
  | none => Except.ok (s, NextInstruction.Stay)

/-- FX29 - I = font glyph address of digit VX (vx * 5 is u8 arithmetic,
wrapping at 256 in release builds). -/
def execute_fx29 (s : Chip8) (x : Nat) : HandlerResult :=
  let vx := s.v x
  let offset := vx * 5 % 256
  Except.ok ({ s with i := FONT_INITIAL_POSITION + offset }, NextInstruction.Next)

/-- FX33 - write the BCD digits of VX to memory[I..I+3], then I += X + 1.
The slice memory[i..i+3] panics when i+3 exceeds RAM_SIZE. -/
def execute_fx33 (s : Chip8) (x : Nat) : HandlerResult :=
  let numbers := convert_to_binary_coded_decimal (s.v x)
  let i := s.i
  if i + 3 ≤ RAM_SIZE then
    Except.ok ({ s with
      memory := fun a =>
        if a = i then numbers.1
        else if a = i + 1 then numbers.2.1
        else if a = i + 2 then numbers.2.2
        else s.memory a,
      i := s.i + x + 1 }, NextInstruction.Next)
  else
    Except.error Chip8Error.indexOutOfBounds

/-- FX65 - load V0..=VX from memory[I..I+X+1], then I += X + 1.  The slice
panics when i+x+1 exceeds RAM_SIZE. -/
def execute_fx65 (s : Chip8) (x : Nat) : HandlerResult :=
  let i := s.i
  if i + x + 1 ≤ RAM_SIZE then
    Except.ok ({ s with
      v := fun k => if k ≤ x then s.memory (i + k) else s.v k,
      i := s.i + x + 1 }, NextInstruction.Next)
  else
    Except.error Chip8Error.indexOutOfBounds

/-- FX55 - store V0..=VX to memory[I..I+X+1], then I += X + 1.  The slice
panics when i+x+1 exceeds RAM_SIZE. -/
def execute_fx55 (s : Chip8) (x : Nat) : HandlerResult :=
  let i := s.i
  if i + x + 1 ≤ RAM_SIZE then
    Except.ok ({ s with
      memory := fun a => if i ≤ a ∧ a ≤ i + x then s.v (a - i) else s.memory a,
      i := s.i + x + 1 }, NextInstruction.Next)
  else
    Except.error Chip8Error.indexOutOfBounds

/-- 9XY0 - skip if VX != VY. -/
def execute_9xy0 (s : Chip8) (x y : Nat) : HandlerResult :=
  Except.ok (s, NextInstruction.skip_if (s.v x != s.v y))

/- ## DXYN - display and draw. -/

/-- The inner loop of execute_dxyn: one sprite row.  ts enumerates the
offsets (row_iter) of the clipped column range j..end_to_right, so the
screen column is j + t and the sprite bit is bit (7 - t) of the sprite
byte.  The Rust code reads and XOR-writes screen[pixel_index]; the array
bound PIXELS_PER_SCREEN is checked at that access. -/
def blitRow (sprite_byte column_index j : Nat) :
    List Nat → (Nat → Bool) → Nat → Except Chip8Error ((Nat → Bool) × Nat)
  | [], screen, vf => Except.ok (screen, vf)
  | t :: ts, screen, vf =>
    let sprite_pixel := (sprite_byte >>> (7 - t)) &&& 0x1
    let pixel_index := column_index * PIXELS_PER_ROW + (j + t)
    if pixel_index < PIXELS_PER_SCREEN then
      let screen_pixel := screen pixel_index
      let vf1 := if sprite_pixel = 1 ∧ screen_pixel then 1 else vf
      let screen1 := if sprite_pixel = 1
        then fun k => if k = pixel_index then !screen k else screen k
        else screen
      blitRow sprite_byte column_index j ts screen1 vf1
    else
      Except.error Chip8Error.indexOutOfBounds

/-- The outer loop of execute_dxyn: cs enumerates the offsets (column_iter)
of the clipped row range i..end_downwards, so the screen row is i + c and
the sprite byte is memory[I + c] (whose bound RAM_SIZE is checked at that
access, as in the Rust indexing). -/
def blitRows (mem : Nat → Nat) (I i j end_to_right : Nat) :
    List Nat → (Nat → Bool) → Nat → Except Chip8Error ((Nat → Bool) × Nat)
  | [], screen, vf => Except.ok (screen, vf)
  | c :: cs, screen, vf =>
    if I + c < RAM_SIZE then
      let sprite_byte := mem (I + c)
      match blitRow sprite_byte (i + c) j (List.range (end_to_right - j)) screen vf with
      | Except.ok (screen1, vf1) => blitRows mem I i j end_to_right cs screen1 vf1
      | Except.error e => Except.error e
    else
      Except.error Chip8Error.indexOutOfBounds

/-- DXYN - draw: top-left at (VX mod 64, VY mod 32), VF reset to 0, the N
rows clipped at the bottom (min (i+n) 32) and the 8 columns clipped at the
right (min (j+8) 64), sprite bytes read from memory at I, I+1, ...;
afterwards the redraw flag is set. -/
def execute_dxyn (s : Chip8) (x y n : Nat) : HandlerResult :=
  let i := s.v y % 32
  let j := s.v x % 64
  let v0 := updf s.v 0xF 0
  let end_downwards := min (i + n) 32
  let end_to_right := min (j + 8) 64
  match blitRows s.memory s.i i j end_to_right (List.range (end_downwards - i)) s.screen 0 with
  | Except.ok (screen1, vf1) =>
    Except.ok ({ s with v := updf v0 0xF vf1, screen := screen1, should_redraw := true },
      NextInstruction.Next)
  | Except.error e => Except.error e

/- ## The stepping routine. -/

/-- Application of a NextInstruction directive to the (already advanced)
program counter, as done at the end of Chip8::tick; the + and - there are
u16 arithmetic, wrapping at 65536. -/
def applyDirective (pc : Nat) : NextInstruction → Nat
  | NextInstruction.Next => pc
  | NextInstruction.Skip => (pc + 2) % 65536
  | NextInstruction.Jump addr => addr
  | NextInstruction.Stay => (pc + 65536 - 2) % 65536

/-- The dispatch match of Chip8::tick: the Rust code pattern-matches the
four nibbles against its arms from top to bottom; here that first-match
semantics is modelled as an ordered chain of nibble tests (one test per
arm, in the order of the source).  The final wildcard arm is todo in the
Rust source, i.e. a panic. -/
def step_dispatch (s : Chip8) (n0 x y n nn nnn : Nat) : HandlerResult :=
  if n0 = 0x0 ∧ x = 0x0 ∧ y = 0xE ∧ n = 0x0 then execute_00e0 s
  else if n0 = 0x0 ∧ x = 0x0 ∧ y = 0xE ∧ n = 0xE then execute_00ee s
  else if n0 = 0x1 then execute_1nnn s nnn
  else if n0 = 0x2 then execute_2nnn s nnn
  else if n0 = 0x3 then execute_3xnn s x nn
  else if n0 = 0x4 then execute_4xnn s x nn
  else if n0 = 0x5 ∧ n = 0x0 then execute_5xy0 s x y
  else if n0 = 0x6 then execute_6xnn s x nn
  else if n0 = 0x7 then execute_7xnn s x nn
  else if n0 = 0x8 ∧ n = 0x0 then execute_8xy0 s x y
  else if n0 = 0x8 ∧ n = 0x1 then execute_8xy1 s x y
  else if n0 = 0x8 ∧ n = 0x2 then execute_8xy2 s x y
  else if n0 = 0x8 ∧ n = 0x3 then execute_8xy3 s x y
  else if n0 = 0x8 ∧ n = 0x4 then execute_8xy4 s x y
  else if n0 = 0x8 ∧ n = 0x5 then execute_8xy5 s x y
  else if n0 = 0x8 ∧ n = 0x6 then execute_8xy6 s x y
  else if n0 = 0x8 ∧ n = 0x7 then execute_8xy7 s x y
  else if n0 = 0x8 ∧ n = 0xE then execute_8xye s x y
  else if n0 = 0xA then execute_annn s nnn
  else if n0 = 0xB then execute_bnnn s nnn
  else if n0 = 0xC then execute_cxnn s x nn
  else if n0 = 0xD then execute_dxyn s x y n
  else if n0 = 0xE ∧ y = 0x9 ∧ n = 0xE then execute_ex9e s x
  else if n0 = 0xE ∧ y = 0xA ∧ n = 0x1 then execute_exa1 s x
  else if n0 = 0xF ∧ y = 0x0 ∧ n = 0x7 then execute_fx07 s x
  else if n0 = 0xF ∧ y = 0x1 ∧ n = 0x5 then execute_fx15 s x
  else if n0 = 0xF ∧ y = 0x1 ∧ n = 0x8 then execute_fx18 s x
  else if n0 = 0xF ∧ y = 0x1 ∧ n = 0xE then execute_fx1e s x
  else if n0 = 0xF ∧ y = 0x0 ∧ n = 0xA then execute_fx0a s x
  else if n0 = 0xF ∧ y = 0x2 ∧ n = 0x9 then execute_fx29 s x
  else if n0 = 0xF ∧ y = 0x3 ∧ n = 0x3 then execute_fx33 s x
  else if n0 = 0xF ∧ y = 0x5 ∧ n = 0x5 then execute_fx55 s x
  else if n0 = 0xF ∧ y = 0x6 ∧ n = 0x5 then execute_fx65 s x
  else if n0 = 0x9 ∧ n = 0x0 then execute_9xy0 s x y
  else Except.error Chip8Error.unimplementedOpcode

/-- Chip8::tick: fetch the big-endian instruction at pc (each of the two
array reads is bounds-checked, panicking - here erroring - past RAM_SIZE),
advance pc by 2 before dispatch, dispatch, then apply the returned
directive to the advanced pc. -/
def Chip8.tick (s : Chip8) : Except Chip8Error Chip8 :=
  if s.pc < RAM_SIZE then
    if s.pc + 1 < RAM_SIZE then
      let instruction := s.memory s.pc * 256 + s.memory (s.pc + 1)
      let nib := decode_instruction_into_nibbles instruction
      let s1 : Chip8 := { s with pc := (s.pc + 2) % 65536 }
      match step_dispatch s1 nib.1 nib.2.1 nib.2.2.1 nib.2.2.2
          (instruction &&& 0x00FF) (instruction &&& 0x0FFF) with
      | Except.ok (s2, next_instruction) =>
        Except.ok { s2 with pc := applyDirective s2.pc next_instruction }
      | Except.error e => Except.error e
    else
      Except.error Chip8Error.indexOutOfBounds
  else
    Except.error Chip8Error.indexOutOfBounds

/- ## Specification-side description of the draw opcode (for claim C1).
These definitions follow the wording of the specification: top-left at
(VX mod 64, VY mod 32), rows and columns clipped (not wrapped) at the
bottom/right edges, sprite byte of row r read from memory at I + r, bits
taken most-significant first, collision when a 1-bit lands on a lit pixel. -/

/-- Whether the draw opcode DXYN, executed in state s, flips the screen cell
at row r, column c (row-major cell index r * 64 + c). -/
def dxyn_flips (s : Chip8) (x y n r c : Nat) : Bool :=
  let i := s.v y % 32
  let j := s.v x % 64
  decide (i ≤ r) && decide (r < min (i + n) 32) &&
  decide (j ≤ c) && decide (c < min (j + 8) 64) &&
  (((s.memory (s.i + (r - i)) >>> (7 - (c - j))) &&& 0x1) == 1)

/-- Whether the draw opcode DXYN, executed in state s, makes some 1-bit of
the sprite land on a pixel that is already on. -/
def dxyn_collision (s : Chip8) (x y n : Nat) : Bool :=
  (List.range 32).any fun r => (List.range 64).any fun c =>
    dxyn_flips s x y n r c && s.screen (r * PIXELS_PER_ROW + c)

/- ## Loop characterisation lemmas for the draw opcode. -/

/-- The flip mask of a single sprite row blit. -/
def rowMask (sprite_byte column_index j : Nat) (ts : List Nat) (k : Nat) : Bool :=
  ts.any fun t =>
    (k == column_index * PIXELS_PER_ROW + (j + t)) &&
    (((sprite_byte >>> (7 - t)) &&& 0x1) == 1)

/-- Whether a single sprite row blit hits an already-on pixel of screen. -/
def rowCollide (sprite_byte column_index j : Nat) (ts : List Nat)
    (screen : Nat → Bool) : Bool :=
  ts.any fun t =>
    (((sprite_byte >>> (7 - t)) &&& 0x1) == 1) &&
    screen (column_index * PIXELS_PER_ROW + (j + t))

/-- The flip mask of the whole blit: union over the rows cs. -/
def drawMask (mem : Nat → Nat) (I i j etr : Nat) (cs : List Nat) (k : Nat) : Bool :=
  cs.any fun c => rowMask (mem (I + c)) (i + c) j (List.range (etr - j)) k

/-- Collision over the whole blit against a fixed screen. -/
def drawCollide (mem : Nat → Nat) (I i j etr : Nat) (cs : List Nat)
    (screen : Nat → Bool) : Bool :=
  cs.any fun c => rowCollide (mem (I + c)) (i + c) j (List.range (etr - j)) screen

/-- A machine whose program memory holds the single instruction 0x602A
(set V0 to 0x2A) at the reset program counter. -/
def demo_set_v0 : Chip8 :=
  { Chip8.new (fun _ => 0) with
      memory := fun a => if a = 0x200 then 0x60 else if a = 0x201 then 0x2A else 0 }

/-- A machine with key 5 held down across both frame snapshots: no
press transition (false to true) and no release transition (true to
false) is present anywhere. -/
def demo_held_key : Chip8 :=
  { Chip8.new (fun _ => 0) with
      keypad := { previous_frame_keys := fun k => k == 5,
                  current_frame_keys := fun k => k == 5 } }

/-- A machine with sixteen return addresses on the call stack. -/
def demo_full_stack : Chip8 :=
  { Chip8.new (fun _ => 0) with stack := List.replicate 16 0x200 }

/-- A machine with V1 = 200 and V2 = 100. -/
def demo_regs : Chip8 :=
  { Chip8.new (fun _ => 0) with
      v := fun k => if k = 1 then 200 else if k = 2 then 100 else 0 }

/-- A machine whose index register points near the end of memory. -/
def demo_oob_i : Chip8 :=
  { Chip8.new (fun _ => 0) with i := 4094 }

/-- A machine with I = 0x300 and V3 = 146. -/
def demo_bcd : Chip8 :=
  { Chip8.new (fun _ => 0) with
      i := 0x300,
      v := fun k => if k = 3 then 146 else 0 }

/-- A machine whose V1 holds the 8-bit value 200, beyond the keypad range. -/
def demo_big_v1 : Chip8 :=
  { Chip8.new (fun _ => 0) with v := fun k => if k = 1 then 200 else 5 }

/-- A machine whose index register points at the font glyph for digit 0. -/
def demo_draw : Chip8 :=
  { Chip8.new (fun _ => 0) with i := 0x50 }

/-- A machine waiting on FX0A (instruction 0xF10A at the program counter)
with no key down. -/
def demo_wait_fx0a : Chip8 :=
  { Chip8.new (fun _ => 0) with
      memory := fun a => if a = 0x200 then 0xF1 else if a = 0x201 then 0x0A else 0 }

theorem list_any_congr {α : Type} (l : List α) (p q : α → Bool)
    (h : ∀ a ∈ l, p a = q a) : l.any p = l.any q := by
  induction l with
  | nil => rfl
  | cons a l ih =>
    simp only [List.any_cons, h a (List.mem_cons_self a l),
      ih fun b hb => h b (List.mem_cons_of_mem a hb)]

theorem pix_inj {ci j t u : Nat} (h : ci * PIXELS_PER_ROW + (j + t) = ci * PIXELS_PER_ROW + (j + u)) :
    t = u := by
  omega

theorem blitRow_eq (sprite_byte column_index j : Nat) (ts : List Nat) :
    ∀ (screen : Nat → Bool) (vf : Nat), ts.Nodup →
    (∀ t ∈ ts, column_index * PIXELS_PER_ROW + (j + t) < PIXELS_PER_SCREEN) →
    blitRow sprite_byte column_index j ts screen vf =
      Except.ok
        (fun k => xor (screen k) (rowMask sprite_byte column_index j ts k),
         if rowCollide sprite_byte column_index j ts screen then 1 else vf) := by
  induction ts with
  | nil =>
    intro screen vf _ _
    simp [blitRow, rowMask, rowCollide]
  | cons t ts ih =>
    intro screen vf hnd hb
    have hbt := hb t (List.mem_cons_self t ts)
    have htn : t ∉ ts := (List.nodup_cons.mp hnd).1
    have hnd' : ts.Nodup := (List.nodup_cons.mp hnd).2
    have hb' : ∀ u ∈ ts, column_index * PIXELS_PER_ROW + (j + u) < PIXELS_PER_SCREEN :=
      fun u hu => hb u (List.mem_cons_of_mem t hu)
    simp only [blitRow]
    rw [if_pos hbt]
    by_cases hbit : (sprite_byte >>> (7 - t)) &&& 0x1 = 1
    · -- the sprite bit of this column is set: the pixel toggles
      have hbitb : (((sprite_byte >>> (7 - t)) &&& 0x1) == 1) = true := by
        exact beq_iff_eq.mpr hbit
      rw [if_pos hbit]
      rw [ih _ _ hnd' hb']
      have hmask : rowMask sprite_byte column_index j ts
          (column_index * PIXELS_PER_ROW + (j + t)) = false := by
        rw [rowMask, List.any_eq_false]
        intro u hu
        simp only [Bool.and_eq_true, beq_iff_eq, not_and]
        intro hequ
        exact absurd (pix_inj hequ.symm ▸ hu) htn
      have hconsmask : ∀ k, rowMask sprite_byte column_index j (t :: ts) k
          = ((k == column_index * PIXELS_PER_ROW + (j + t))
              || rowMask sprite_byte column_index j ts k) := by
        intro k
        rw [rowMask, List.any_cons, hbitb, Bool.and_true]
        rfl
      have hconscol : rowCollide sprite_byte column_index j (t :: ts) screen
          = (screen (column_index * PIXELS_PER_ROW + (j + t))
              || rowCollide sprite_byte column_index j ts screen) := by
        rw [rowCollide, List.any_cons, hbitb, Bool.true_and]
        rfl
      have hcong : (rowCollide sprite_byte column_index j ts
            (fun k => if k = column_index * PIXELS_PER_ROW + (j + t)
              then !screen k else screen k))
          = rowCollide sprite_byte column_index j ts screen := by
        apply list_any_congr
        intro u hu
        have hne : column_index * PIXELS_PER_ROW + (j + u)
            ≠ column_index * PIXELS_PER_ROW + (j + t) := by
          intro hequ
          exact absurd (pix_inj hequ ▸ hu) htn
        simp [hne]
      simp only [Except.ok.injEq, Prod.mk.injEq]
      constructor
      · funext k
        rw [hconsmask k]
        by_cases hk : k = column_index * PIXELS_PER_ROW + (j + t)
        · rw [if_pos hk, hk, hmask, beq_self_eq_true, Bool.true_or,
            Bool.xor_false, Bool.xor_true]
        · rw [if_neg hk, beq_eq_false_iff_ne.mpr hk, Bool.false_or]
      · rw [hcong, hconscol]
        by_cases hsp : screen (column_index * PIXELS_PER_ROW + (j + t)) = true
        · have h1 : (if (sprite_byte >>> (7 - t)) &&& 0x1 = 1
                ∧ screen (column_index * PIXELS_PER_ROW + (j + t)) = true
              then (1 : Nat) else vf) = 1 := if_pos ⟨hbit, hsp⟩
          rw [h1, hsp, Bool.true_or]
          simp
        · have hspf : screen (column_index * PIXELS_PER_ROW + (j + t)) = false :=
            Bool.eq_false_iff.mpr hsp
          have h1 : (if (sprite_byte >>> (7 - t)) &&& 0x1 = 1
                ∧ screen (column_index * PIXELS_PER_ROW + (j + t)) = true
              then (1 : Nat) else vf) = vf := if_neg fun hc => hsp hc.2
          rw [h1, hspf, Bool.false_or]
    · -- the sprite bit is clear: nothing changes at this column
      have hbitb : (((sprite_byte >>> (7 - t)) &&& 0x1) == 1) = false := by
        exact beq_eq_false_iff_ne.mpr hbit
      have hvf : (if (sprite_byte >>> (7 - t)) &&& 0x1 = 1
            ∧ screen (column_index * PIXELS_PER_ROW + (j + t)) = true
          then (1 : Nat) else vf) = vf := if_neg fun hc => hbit hc.1
      rw [if_neg hbit, hvf, ih _ _ hnd' hb']
      have hconsmask : ∀ k, rowMask sprite_byte column_index j (t :: ts) k
          = rowMask sprite_byte column_index j ts k := by
        intro k
        rw [rowMask, List.any_cons, hbitb, Bool.and_false, Bool.false_or]
        rfl
      have hconscol : rowCollide sprite_byte column_index j (t :: ts) screen
          = rowCollide sprite_byte column_index j ts screen := by
        rw [rowCollide, List.any_cons, hbitb, Bool.false_and, Bool.false_or]
        rfl
      simp only [Except.ok.injEq, Prod.mk.injEq]
      constructor
      · funext k
        rw [hconsmask k]
      · rw [hconscol]

theorem rowMask_range_shape (sb ci j m k : Nat)
    (h : rowMask sb ci j (List.range m) k = true) :
    ∃ t, t < m ∧ k = ci * PIXELS_PER_ROW + (j + t) := by
  rw [rowMask, List.any_eq_true] at h
  obtain ⟨t, ht, hp⟩ := h
  rw [List.mem_range] at ht
  rw [Bool.and_eq_true, beq_iff_eq] at hp
  exact ⟨t, ht, hp.1⟩

theorem rowMask_range_false (sb ci j m k : Nat)
    (hk : ∀ t, t < m → k ≠ ci * PIXELS_PER_ROW + (j + t)) :
    rowMask sb ci j (List.range m) k = false := by
  rw [rowMask, List.any_eq_false]
  intro t ht
  rw [List.mem_range] at ht
  simp [beq_eq_false_iff_ne.mpr (hk t ht)]

theorem pixrow_inj {a b j t u : Nat} (ht : j + t < 64) (hu : j + u < 64)
    (h : a * PIXELS_PER_ROW + (j + t) = b * PIXELS_PER_ROW + (j + u)) :
    a = b ∧ t = u := by
  rw [show PIXELS_PER_ROW = 64 from rfl] at h
  omega

theorem bool_xor_eq_or (a b : Bool) (h : ¬(a = true ∧ b = true)) :
    xor a b = (a || b) := by
  cases a <;> cases b <;> simp_all

theorem blitRows_eq (mem : Nat → Nat) (I i j etr : Nat)
    (hetr : etr ≤ 64) (cs : List Nat) :
    ∀ (screen : Nat → Bool) (vf : Nat), cs.Nodup →
    (∀ c ∈ cs, I + c < RAM_SIZE) →
    (∀ c ∈ cs, i + c < 32) →
    blitRows mem I i j etr cs screen vf =
      Except.ok
        (fun k => xor (screen k) (drawMask mem I i j etr cs k),
         if drawCollide mem I i j etr cs screen then 1 else vf) := by
  have hjt : ∀ t, t < etr - j → j + t < 64 := fun t ht => by omega
  induction cs with
  | nil =>
    intro screen vf _ _ _
    simp [blitRows, drawMask, drawCollide]
  | cons c cs ih =>
    intro screen vf hnd hm hr
    have hmc := hm c (List.mem_cons_self c cs)
    have hrc := hr c (List.mem_cons_self c cs)
    have hcn : c ∉ cs := (List.nodup_cons.mp hnd).1
    have hnd' : cs.Nodup := (List.nodup_cons.mp hnd).2
    have hm' : ∀ u ∈ cs, I + u < RAM_SIZE := fun u hu => hm u (List.mem_cons_of_mem c hu)
    have hr' : ∀ u ∈ cs, i + u < 32 := fun u hu => hr u (List.mem_cons_of_mem c hu)
    have hbound : ∀ t ∈ List.range (etr - j),
        (i + c) * PIXELS_PER_ROW + (j + t) < PIXELS_PER_SCREEN := by
      intro t ht
      rw [List.mem_range] at ht
      have h1 := hjt t ht
      rw [show PIXELS_PER_ROW = 64 from rfl, show PIXELS_PER_SCREEN = 2048 from rfl]
      omega
    simp only [blitRows]
    rw [if_pos hmc]
    rw [blitRow_eq (mem (I + c)) (i + c) j (List.range (etr - j)) screen vf
      (List.nodup_range _) hbound]
    -- the match on the now-explicit Except.ok reduces definitionally
    refine Eq.trans (ih
      (fun k => xor (screen k) (rowMask (mem (I + c)) (i + c) j (List.range (etr - j)) k))
      (if rowCollide (mem (I + c)) (i + c) j (List.range (etr - j)) screen then 1 else vf)
      hnd' hm' hr') ?_
    -- disjointness of the head row from every later row
    have hdisj : ∀ k, rowMask (mem (I + c)) (i + c) j (List.range (etr - j)) k = true →
        drawMask mem I i j etr cs k = false := by
      intro k hk
      obtain ⟨t, ht, hkt⟩ := rowMask_range_shape _ _ _ _ _ hk
      rw [drawMask, List.any_eq_false]
      intro u hu
      intro hum
      obtain ⟨t', ht', hkt'⟩ := rowMask_range_shape _ _ _ _ _ hum
      have hij := pixrow_inj (hjt t ht) (hjt t' ht') (hkt.symm.trans hkt')
      have hcu : c = u := by omega
      subst hcu
      exact hcn hu
    have hconsmask : ∀ k, drawMask mem I i j etr (c :: cs) k
        = (rowMask (mem (I + c)) (i + c) j (List.range (etr - j)) k
            || drawMask mem I i j etr cs k) := by
      intro k
      rw [drawMask, List.any_cons]
      rfl
    have hconscol : drawCollide mem I i j etr (c :: cs) screen
        = (rowCollide (mem (I + c)) (i + c) j (List.range (etr - j)) screen
            || drawCollide mem I i j etr cs screen) := by
      rw [drawCollide, List.any_cons]
      rfl
    have hcong : drawCollide mem I i j etr cs
          (fun k => xor (screen k) (rowMask (mem (I + c)) (i + c) j (List.range (etr - j)) k))
        = drawCollide mem I i j etr cs screen := by
      apply list_any_congr
      intro u hu
      apply list_any_congr
      intro t ht
      rw [List.mem_range] at ht
      have hne : rowMask (mem (I + c)) (i + c) j (List.range (etr - j))
          ((i + u) * PIXELS_PER_ROW + (j + t)) = false := by
        apply rowMask_range_false
        intro t' ht' heq
        have hij := pixrow_inj (hjt t ht) (hjt t' ht') heq
        have hcu : c = u := by omega
        subst hcu
        exact hcn hu
      dsimp only
      rw [hne, Bool.xor_false]
    simp only [Except.ok.injEq, Prod.mk.injEq]
    constructor
    · funext k
      rw [hconsmask k, Bool.xor_assoc]
      have hdisj2 : ¬(rowMask (mem (I + c)) (i + c) j (List.range (etr - j)) k = true
          ∧ drawMask mem I i j etr cs k = true) := by
        intro hc2
        have hf := hdisj k hc2.1
        rw [hf] at hc2
        exact Bool.false_ne_true hc2.2
      rw [bool_xor_eq_or (rowMask (mem (I + c)) (i + c) j (List.range (etr - j)) k)
        (drawMask mem I i j etr cs k) hdisj2]
    · rw [hcong, hconscol]
      by_cases hrcol : rowCollide (mem (I + c)) (i + c) j (List.range (etr - j)) screen = true
      · rw [hrcol, Bool.true_or, if_pos rfl, ite_self]
      · have hrcf : rowCollide (mem (I + c)) (i + c) j (List.range (etr - j)) screen = false :=
          Bool.eq_false_iff.mpr hrcol
        rw [hrcf, Bool.false_or, if_neg Bool.false_ne_true]

theorem rowMask_range_iff (sb ci j m k : Nat) :
    rowMask sb ci j (List.range m) k = true ↔
    ∃ t, t < m ∧ k = ci * PIXELS_PER_ROW + (j + t) ∧ (sb >>> (7 - t)) &&& 0x1 = 1 := by
  rw [rowMask, List.any_eq_true]
  constructor
  · rintro ⟨t, ht, hp⟩
    rw [List.mem_range] at ht
    rw [Bool.and_eq_true, beq_iff_eq, beq_iff_eq] at hp
    exact ⟨t, ht, hp.1, hp.2⟩
  · rintro ⟨t, ht, hk, hb⟩
    refine ⟨t, List.mem_range.mpr ht, ?_⟩
    rw [Bool.and_eq_true, beq_iff_eq, beq_iff_eq]
    exact ⟨hk, hb⟩

theorem rowCollide_range_iff (sb ci j m : Nat) (screen : Nat → Bool) :
    rowCollide sb ci j (List.range m) screen = true ↔
    ∃ t, t < m ∧ (sb >>> (7 - t)) &&& 0x1 = 1
      ∧ screen (ci * PIXELS_PER_ROW + (j + t)) = true := by
  rw [rowCollide, List.any_eq_true]
  constructor
  · rintro ⟨t, ht, hp⟩
    rw [List.mem_range] at ht
    rw [Bool.and_eq_true, beq_iff_eq] at hp
    exact ⟨t, ht, hp.1, hp.2⟩
  · rintro ⟨t, ht, hb, hs⟩
    refine ⟨t, List.mem_range.mpr ht, ?_⟩
    rw [Bool.and_eq_true, beq_iff_eq]
    exact ⟨hb, hs⟩

theorem drawMask_eq_flips (s : Chip8) (x y n k : Nat) :
    drawMask s.memory s.i (s.v y % 32) (s.v x % 64) (min (s.v x % 64 + 8) 64)
      (List.range (min (s.v y % 32 + n) 32 - s.v y % 32)) k
    = dxyn_flips s x y n (k / PIXELS_PER_ROW) (k % PIXELS_PER_ROW) := by
  have hP : PIXELS_PER_ROW = 64 := rfl
  have hi : s.v y % 32 < 32 := Nat.mod_lt _ (by norm_num)
  have hj : s.v x % 64 < 64 := Nat.mod_lt _ (by norm_num)
  apply Bool.eq_iff_iff.mpr
  rw [drawMask, List.any_eq_true]
  simp only [dxyn_flips, Bool.and_eq_true, decide_eq_true_eq, beq_iff_eq, List.mem_range]
  constructor
  · rintro ⟨c, hc, hrow⟩
    rw [rowMask_range_iff] at hrow
    obtain ⟨t, ht, hk, hb⟩ := hrow
    rw [hP] at hk
    have hjt : s.v x % 64 + t < min (s.v x % 64 + 8) 64 := by omega
    have hdiv : k / PIXELS_PER_ROW = s.v y % 32 + c := by rw [hP]; omega
    have hmod : k % PIXELS_PER_ROW = s.v x % 64 + t := by rw [hP]; omega
    rw [hdiv, hmod]
    have h1 : s.v y % 32 + c - s.v y % 32 = c := by omega
    have h2 : s.v x % 64 + t - s.v x % 64 = t := by omega
    rw [h1, h2]
    exact ⟨⟨⟨⟨by omega, by omega⟩, by omega⟩, by omega⟩, hb⟩
  · rintro ⟨⟨⟨⟨hic, hredw⟩, hjc⟩, hcetr⟩, hb⟩
    refine ⟨k / PIXELS_PER_ROW - s.v y % 32, by omega, ?_⟩
    rw [rowMask_range_iff]
    refine ⟨k % PIXELS_PER_ROW - s.v x % 64, by omega, ?_, hb⟩
    rw [hP] at *
    omega

theorem drawCollide_eq_collision (s : Chip8) (x y n : Nat) :
    drawCollide s.memory s.i (s.v y % 32) (s.v x % 64) (min (s.v x % 64 + 8) 64)
      (List.range (min (s.v y % 32 + n) 32 - s.v y % 32)) s.screen
    = dxyn_collision s x y n := by
  have hP : PIXELS_PER_ROW = 64 := rfl
  have hi : s.v y % 32 < 32 := Nat.mod_lt _ (by norm_num)
  have hj : s.v x % 64 < 64 := Nat.mod_lt _ (by norm_num)
  apply Bool.eq_iff_iff.mpr
  rw [drawCollide, List.any_eq_true, dxyn_collision, List.any_eq_true]
  constructor
  · rintro ⟨c, hc, hrow⟩
    rw [List.mem_range] at hc
    rw [rowCollide_range_iff] at hrow
    obtain ⟨t, ht, hb, hs⟩ := hrow
    refine ⟨s.v y % 32 + c, List.mem_range.mpr (by omega), ?_⟩
    rw [List.any_eq_true]
    refine ⟨s.v x % 64 + t, List.mem_range.mpr (by omega), ?_⟩
    rw [Bool.and_eq_true]
    constructor
    · simp only [dxyn_flips, Bool.and_eq_true, decide_eq_true_eq, beq_iff_eq]
      have h1 : s.v y % 32 + c - s.v y % 32 = c := by omega
      have h2 : s.v x % 64 + t - s.v x % 64 = t := by omega
      rw [h1, h2]
      exact ⟨⟨⟨⟨by omega, by omega⟩, by omega⟩, by omega⟩, hb⟩
    · exact hs
  · rintro ⟨r, hr, hrow⟩
    rw [List.mem_range] at hr
    rw [List.any_eq_true] at hrow
    obtain ⟨c, hc, hp⟩ := hrow
    rw [List.mem_range] at hc
    rw [Bool.and_eq_true] at hp
    obtain ⟨hfl, hs⟩ := hp
    simp only [dxyn_flips, Bool.and_eq_true, decide_eq_true_eq, beq_iff_eq] at hfl
    obtain ⟨⟨⟨⟨hir, hredw⟩, hjc⟩, hcetr⟩, hb⟩ := hfl
    refine ⟨r - s.v y % 32, List.mem_range.mpr (by omega), ?_⟩
    rw [rowCollide_range_iff]
    refine ⟨c - s.v x % 64, by omega, hb, ?_⟩
    · have h1 : s.v y % 32 + (r - s.v y % 32) = r := by omega
      have h2 : s.v x % 64 + (c - s.v x % 64) = c := by omega
      rw [h1, h2]
      exact hs

theorem execute_dxyn_eq_of (s : Chip8) (x y n : Nat) (f : Nat → Bool) (vfr : Nat)
    (h : blitRows s.memory s.i (s.v y % 32) (s.v x % 64) (min (s.v x % 64 + 8) 64)
      (List.range (min (s.v y % 32 + n) 32 - s.v y % 32)) s.screen 0
      = Except.ok (f, vfr)) :
    execute_dxyn s x y n =
      Except.ok ({ s with
          v := updf (updf s.v 0xF 0) 0xF vfr,
          screen := f,
          should_redraw := true }, NextInstruction.Next) := by
  simp only [execute_dxyn]
  rw [h]

/-- C1: for every machine state whose sprite-byte reads stay inside memory,
executing DXYN computes the top-left coordinate as (VX mod 64, VY mod 32),
XORs the clipped sprite (rows from memory at I, I+1, ..., bits taken
most-significant first) onto the screen, puts 1 into VF exactly when some
1-bit of the sprite lands on a pixel that is already on (0 otherwise, VF
having been reset first), and sets the redraw flag; every other component
of the state is untouched and the directive is Next. -/
theorem dxyn_draw_correct (s : Chip8) (x y n : Nat)
    (hmem : ∀ c, c < min (s.v y % 32 + n) 32 - s.v y % 32 → s.i + c < RAM_SIZE) :
    execute_dxyn s x y n =
      Except.ok
        ({ s with
            v := updf s.v 0xF (if dxyn_collision s x y n then 1 else 0),
            screen := fun k => xor (s.screen k)
              (dxyn_flips s x y n (k / PIXELS_PER_ROW) (k % PIXELS_PER_ROW)),
            should_redraw := true },
         NextInstruction.Next) := by
  have hrun := blitRows_eq s.memory s.i (s.v y % 32) (s.v x % 64)
    (min (s.v x % 64 + 8) 64) (min_le_right _ _)
    (List.range (min (s.v y % 32 + n) 32 - s.v y % 32)) s.screen 0
    (List.nodup_range _)
    (fun c hc => hmem c (List.mem_range.mp hc))
    (fun c hc => by have := List.mem_range.mp hc; omega)
  rw [execute_dxyn_eq_of s x y n _ _ hrun]
  have hv : updf (updf s.v 0xF 0) 0xF
      (if drawCollide s.memory s.i (s.v y % 32) (s.v x % 64) (min (s.v x % 64 + 8) 64)
        (List.range (min (s.v y % 32 + n) 32 - s.v y % 32)) s.screen = true then 1 else 0)
      = updf s.v 0xF (if dxyn_collision s x y n = true then 1 else 0) := by
    rw [drawCollide_eq_collision]
    funext k
    by_cases hk : k = 0xF <;> simp [updf, hk]
  have hscr : (fun k => xor (s.screen k)
      (drawMask s.memory s.i (s.v y % 32) (s.v x % 64) (min (s.v x % 64 + 8) 64)
        (List.range (min (s.v y % 32 + n) 32 - s.v y % 32)) k))
      = fun k => xor (s.screen k)
        (dxyn_flips s x y n (k / PIXELS_PER_ROW) (k % PIXELS_PER_ROW)) := by
    funext k
    rw [drawMask_eq_flips]
  rw [hv, hscr]

set_option maxHeartbeats 4000000 in
/-- No opcode handler writes the program counter: pc mutation is centralised
in the stepping routine (the handlers only read it - 2NNN pushes it). -/
theorem step_dispatch_pc (s : Chip8) (n0 x y n nn nnn : Nat) (s2 : Chip8)
    (d : NextInstruction)
    (h : step_dispatch s n0 x y n nn nnn = Except.ok (s2, d)) : s2.pc = s.pc := by
  unfold step_dispatch at h
  by_cases hc0 : n0 = 0x0 ∧ x = 0x0 ∧ y = 0xE ∧ n = 0x0
  case pos =>
    rw [if_pos hc0] at h
    simp only [execute_00e0, NextInstruction.skip_if] at h
    (try split at h)
    all_goals
      first
        | (obtain ⟨h1, h2⟩ := h
           rw [← h1])
        | (simp only [Except.ok.injEq, Prod.mk.injEq] at h
           rw [← h.1])
        | simp at h
  case neg =>
  rw [if_neg hc0] at h
  by_cases hc1 : n0 = 0x0 ∧ x = 0x0 ∧ y = 0xE ∧ n = 0xE
  case pos =>
    rw [if_pos hc1] at h
    simp only [execute_00ee, NextInstruction.skip_if] at h
    (try split at h)
    all_goals
      first
        | (obtain ⟨h1, h2⟩ := h
           rw [← h1])
        | (simp only [Except.ok.injEq, Prod.mk.injEq] at h
           rw [← h.1])
        | simp at h
  case neg =>
  rw [if_neg hc1] at h
  by_cases hc2 : n0 = 0x1
  case pos =>
    rw [if_pos hc2] at h
    simp only [execute_1nnn, NextInstruction.skip_if] at h
    (try split at h)
    all_goals
      first
        | (obtain ⟨h1, h2⟩ := h
           rw [← h1])
        | (simp only [Except.ok.injEq, Prod.mk.injEq] at h
           rw [← h.1])
        | simp at h
  case neg =>
  rw [if_neg hc2] at h
  by_cases hc3 : n0 = 0x2
  case pos =>
    rw [if_pos hc3] at h
    simp only [execute_2nnn, NextInstruction.skip_if] at h
    (try split at h)
    all_goals
      first
        | (obtain ⟨h1, h2⟩ := h
           rw [← h1])
        | (simp only [Except.ok.injEq, Prod.mk.injEq] at h
           rw [← h.1])
        | simp at h
  case neg =>
  rw [if_neg hc3] at h
  by_cases hc4 : n0 = 0x3
  case pos =>
    rw [if_pos hc4] at h
    simp only [execute_3xnn, NextInstruction.skip_if] at h
    (try split at h)
    all_goals
      first
        | (obtain ⟨h1, h2⟩ := h
           rw [← h1])
        | (simp only [Except.ok.injEq, Prod.mk.injEq] at h
           rw [← h.1])
        | simp at h
  case neg =>
  rw [if_neg hc4] at h
  by_cases hc5 : n0 = 0x4
  case pos =>
    rw [if_pos hc5] at h
    simp only [execute_4xnn, NextInstruction.skip_if] at h
    (try split at h)
    all_goals
      first
        | (obtain ⟨h1, h2⟩ := h
           rw [← h1])
        | (simp only [Except.ok.injEq, Prod.mk.injEq] at h
           rw [← h.1])
        | simp at h
  case neg =>
  rw [if_neg hc5] at h
  by_cases hc6 : n0 = 0x5 ∧ n = 0x0
  case pos =>
    rw [if_pos hc6] at h
    simp only [execute_5xy0, NextInstruction.skip_if] at h
    (try split at h)
    all_goals
      first
        | (obtain ⟨h1, h2⟩ := h
           rw [← h1])
        | (simp only [Except.ok.injEq, Prod.mk.injEq] at h
           rw [← h.1])
        | simp at h
  case neg =>
  rw [if_neg hc6] at h
  by_cases hc7 : n0 = 0x6
  case pos =>
    rw [if_pos hc7] at h
    simp only [execute_6xnn, NextInstruction.skip_if] at h
    (try split at h)
    all_goals
      first
        | (obtain ⟨h1, h2⟩ := h
           rw [← h1])
        | (simp only [Except.ok.injEq, Prod.mk.injEq] at h
           rw [← h.1])
        | simp at h
  case neg =>
  rw [if_neg hc7] at h
  by_cases hc8 : n0 = 0x7
  case pos =>
    rw [if_pos hc8] at h
    simp only [execute_7xnn, NextInstruction.skip_if] at h
    (try split at h)
    all_goals
      first
        | (obtain ⟨h1, h2⟩ := h
           rw [← h1])
        | (simp only [Except.ok.injEq, Prod.mk.injEq] at h
           rw [← h.1])
        | simp at h
  case neg =>
  rw [if_neg hc8] at h
  by_cases hc9 : n0 = 0x8 ∧ n = 0x0
  case pos =>
    rw [if_pos hc9] at h
    simp only [execute_8xy0, NextInstruction.skip_if] at h
    (try split at h)
    all_goals
      first
        | (obtain ⟨h1, h2⟩ := h
           rw [← h1])
        | (simp only [Except.ok.injEq, Prod.mk.injEq] at h
           rw [← h.1])
        | simp at h
  case neg =>
  rw [if_neg hc9] at h
  by_cases hc10 : n0 = 0x8 ∧ n = 0x1
  case pos =>
    rw [if_pos hc10] at h
    simp only [execute_8xy1, NextInstruction.skip_if] at h
    (try split at h)
    all_goals
      first
        | (obtain ⟨h1, h2⟩ := h
           rw [← h1])
        | (simp only [Except.ok.injEq, Prod.mk.injEq] at h
           rw [← h.1])
        | simp at h
  case neg =>
  rw [if_neg hc10] at h
  by_cases hc11 : n0 = 0x8 ∧ n = 0x2
  case pos =>
    rw [if_pos hc11] at h
    simp only [execute_8xy2, NextInstruction.skip_if] at h
    (try split at h)
    all_goals
      first
        | (obtain ⟨h1, h2⟩ := h
           rw [← h1])
        | (simp only [Except.ok.injEq, Prod.mk.injEq] at h
           rw [← h.1])
        | simp at h
  case neg =>
  rw [if_neg hc11] at h
  by_cases hc12 : n0 = 0x8 ∧ n = 0x3
  case pos =>
    rw [if_pos hc12] at h
    simp only [execute_8xy3, NextInstruction.skip_if] at h
    (try split at h)
    all_goals
      first
        | (obtain ⟨h1, h2⟩ := h
           rw [← h1])
        | (simp only [Except.ok.injEq, Prod.mk.injEq] at h
           rw [← h.1])
        | simp at h
  case neg =>
  rw [if_neg hc12] at h
  by_cases hc13 : n0 = 0x8 ∧ n = 0x4
  case pos =>
    rw [if_pos hc13] at h
    simp only [execute_8xy4, NextInstruction.skip_if] at h
    (try split at h)
    all_goals
      first
        | (obtain ⟨h1, h2⟩ := h
           rw [← h1])
        | (simp only [Except.ok.injEq, Prod.mk.injEq] at h
           rw [← h.1])
        | simp at h
  case neg =>
  rw [if_neg hc13] at h
  by_cases hc14 : n0 = 0x8 ∧ n = 0x5
  case pos =>
    rw [if_pos hc14] at h
    simp only [execute_8xy5, NextInstruction.skip_if] at h
    (try split at h)
    all_goals
      first
        | (obtain ⟨h1, h2⟩ := h
           rw [← h1])
        | (simp only [Except.ok.injEq, Prod.mk.injEq] at h
           rw [← h.1])
        | simp at h
  case neg =>
  rw [if_neg hc14] at h
  by_cases hc15 : n0 = 0x8 ∧ n = 0x6
  case pos =>
    rw [if_pos hc15] at h
    simp only [execute_8xy6, NextInstruction.skip_if] at h
    (try split at h)
    all_goals
      first
        | (obtain ⟨h1, h2⟩ := h
           rw [← h1])
        | (simp only [Except.ok.injEq, Prod.mk.injEq] at h
           rw [← h.1])
        | simp at h
  case neg =>
  rw [if_neg hc15] at h
  by_cases hc16 : n0 = 0x8 ∧ n = 0x7
  case pos =>
    rw [if_pos hc16] at h
    simp only [execute_8xy7, NextInstruction.skip_if] at h
    (try split at h)
    all_goals
      first
        | (obtain ⟨h1, h2⟩ := h
           rw [← h1])
        | (simp only [Except.ok.injEq, Prod.mk.injEq] at h
           rw [← h.1])
        | simp at h
  case neg =>
  rw [if_neg hc16] at h
  by_cases hc17 : n0 = 0x8 ∧ n = 0xE
  case pos =>
    rw [if_pos hc17] at h
    simp only [execute_8xye, NextInstruction.skip_if] at h
    (try split at h)
    all_goals
      first
        | (obtain ⟨h1, h2⟩ := h
           rw [← h1])
        | (simp only [Except.ok.injEq, Prod.mk.injEq] at h
           rw [← h.1])
        | simp at h
  case neg =>
  rw [if_neg hc17] at h
  by_cases hc18 : n0 = 0xA
  case pos =>
    rw [if_pos hc18] at h
    simp only [execute_annn, NextInstruction.skip_if] at h
    (try split at h)
    all_goals
      first
        | (obtain ⟨h1, h2⟩ := h
           rw [← h1])
        | (simp only [Except.ok.injEq, Prod.mk.injEq] at h
           rw [← h.1])
        | simp at h
  case neg =>
  rw [if_neg hc18] at h
  by_cases hc19 : n0 = 0xB
  case pos =>
    rw [if_pos hc19] at h
    simp only [execute_bnnn, NextInstruction.skip_if] at h
    (try split at h)
    all_goals
      first
        | (obtain ⟨h1, h2⟩ := h
           rw [← h1])
        | (simp only [Except.ok.injEq, Prod.mk.injEq] at h
           rw [← h.1])
        | simp at h
  case neg =>
  rw [if_neg hc19] at h
  by_cases hc20 : n0 = 0xC
  case pos =>
    rw [if_pos hc20] at h
    simp only [execute_cxnn, NextInstruction.skip_if] at h
    (try split at h)
    all_goals
      first
        | (obtain ⟨h1, h2⟩ := h
           rw [← h1])
        | (simp only [Except.ok.injEq, Prod.mk.injEq] at h
           rw [← h.1])
        | simp at h
  case neg =>
  rw [if_neg hc20] at h
  by_cases hc21 : n0 = 0xD
  case pos =>
    rw [if_pos hc21] at h
    simp only [execute_dxyn, NextInstruction.skip_if] at h
    (try split at h)
    all_goals
      first
        | (obtain ⟨h1, h2⟩ := h
           rw [← h1])
        | (simp only [Except.ok.injEq, Prod.mk.injEq] at h
           rw [← h.1])
        | simp at h
  case neg =>
  rw [if_neg hc21] at h
  by_cases hc22 : n0 = 0xE ∧ y = 0x9 ∧ n = 0xE
  case pos =>
    rw [if_pos hc22] at h
    simp only [execute_ex9e, NextInstruction.skip_if] at h
    (try split at h)
    all_goals
      first
        | (obtain ⟨h1, h2⟩ := h
           rw [← h1])
        | (simp only [Except.ok.injEq, Prod.mk.injEq] at h
           rw [← h.1])
        | simp at h
  case neg =>
  rw [if_neg hc22] at h
  by_cases hc23 : n0 = 0xE ∧ y = 0xA ∧ n = 0x1
  case pos =>
    rw [if_pos hc23] at h
    simp only [execute_exa1, NextInstruction.skip_if] at h
    (try split at h)
    all_goals
      first
        | (obtain ⟨h1, h2⟩ := h
           rw [← h1])
        | (simp only [Except.ok.injEq, Prod.mk.injEq] at h
           rw [← h.1])
        | simp at h
  case neg =>
  rw [if_neg hc23] at h
  by_cases hc24 : n0 = 0xF ∧ y = 0x0 ∧ n = 0x7
  case pos =>
    rw [if_pos hc24] at h
    simp only [execute_fx07, NextInstruction.skip_if] at h
    (try split at h)
    all_goals
      first
        | (obtain ⟨h1, h2⟩ := h
           rw [← h1])
        | (simp only [Except.ok.injEq, Prod.mk.injEq] at h
           rw [← h.1])
        | simp at h
  case neg =>
  rw [if_neg hc24] at h
  by_cases hc25 : n0 = 0xF ∧ y = 0x1 ∧ n = 0x5
  case pos =>
    rw [if_pos hc25] at h
    simp only [execute_fx15, NextInstruction.skip_if] at h
    (try split at h)
    all_goals
      first
        | (obtain ⟨h1, h2⟩ := h
           rw [← h1])
        | (simp only [Except.ok.injEq, Prod.mk.injEq] at h
           rw [← h.1])
        | simp at h
  case neg =>
  rw [if_neg hc25] at h
  by_cases hc26 : n0 = 0xF ∧ y = 0x1 ∧ n = 0x8
  case pos =>
    rw [if_pos hc26] at h
    simp only [execute_fx18, NextInstruction.skip_if] at h
    (try split at h)
    all_goals
      first
        | (obtain ⟨h1, h2⟩ := h
           rw [← h1])
        | (simp only [Except.ok.injEq, Prod.mk.injEq] at h
           rw [← h.1])
        | simp at h
  case neg =>
  rw [if_neg hc26] at h
  by_cases hc27 : n0 = 0xF ∧ y = 0x1 ∧ n = 0xE
  case pos =>
    rw [if_pos hc27] at h
    simp only [execute_fx1e, NextInstruction.skip_if] at h
    (try split at h)
    all_goals
      first
        | (obtain ⟨h1, h2⟩ := h
           rw [← h1])
        | (simp only [Except.ok.injEq, Prod.mk.injEq] at h
           rw [← h.1])
        | simp at h
  case neg =>
  rw [if_neg hc27] at h
  by_cases hc28 : n0 = 0xF ∧ y = 0x0 ∧ n = 0xA
  case pos =>
    rw [if_pos hc28] at h
    simp only [execute_fx0a, NextInstruction.skip_if] at h
    (try split at h)
    all_goals
      first
        | (obtain ⟨h1, h2⟩ := h
           rw [← h1])
        | (simp only [Except.ok.injEq, Prod.mk.injEq] at h
           rw [← h.1])
        | simp at h
  case neg =>
  rw [if_neg hc28] at h
  by_cases hc29 : n0 = 0xF ∧ y = 0x2 ∧ n = 0x9
  case pos =>
    rw [if_pos hc29] at h
    simp only [execute_fx29, NextInstruction.skip_if] at h
    (try split at h)
    all_goals
      first
        | (obtain ⟨h1, h2⟩ := h
           rw [← h1])
        | (simp only [Except.ok.injEq, Prod.mk.injEq] at h
           rw [← h.1])
        | simp at h
  case neg =>
  rw [if_neg hc29] at h
  by_cases hc30 : n0 = 0xF ∧ y = 0x3 ∧ n = 0x3
  case pos =>
    rw [if_pos hc30] at h
    simp only [execute_fx33, NextInstruction.skip_if] at h
    (try split at h)
    all_goals
      first
        | (obtain ⟨h1, h2⟩ := h
           rw [← h1])
        | (simp only [Except.ok.injEq, Prod.mk.injEq] at h
           rw [← h.1])
        | simp at h
  case neg =>
  rw [if_neg hc30] at h
  by_cases hc31 : n0 = 0xF ∧ y = 0x5 ∧ n = 0x5
  case pos =>
    rw [if_pos hc31] at h
    simp only [execute_fx55, NextInstruction.skip_if] at h
    (try split at h)
    all_goals
      first
        | (obtain ⟨h1, h2⟩ := h
           rw [← h1])
        | (simp only [Except.ok.injEq, Prod.mk.injEq] at h
           rw [← h.1])
        | simp at h
  case neg =>
  rw [if_neg hc31] at h
  by_cases hc32 : n0 = 0xF ∧ y = 0x6 ∧ n = 0x5
  case pos =>
    rw [if_pos hc32] at h
    simp only [execute_fx65, NextInstruction.skip_if] at h
    (try split at h)
    all_goals
      first
        | (obtain ⟨h1, h2⟩ := h
           rw [← h1])
        | (simp only [Except.ok.injEq, Prod.mk.injEq] at h
           rw [← h.1])
        | simp at h
  case neg =>
  rw [if_neg hc32] at h
  by_cases hc33 : n0 = 0x9 ∧ n = 0x0
  case pos =>
    rw [if_pos hc33] at h
    simp only [execute_9xy0, NextInstruction.skip_if] at h
    (try split at h)
    all_goals
      first
        | (obtain ⟨h1, h2⟩ := h
           rw [← h1])
        | (simp only [Except.ok.injEq, Prod.mk.injEq] at h
           rw [← h.1])
        | simp at h
  case neg =>
  rw [if_neg hc33] at h
  exact absurd h (by simp)

/-- C2: on every step whose fetch succeeds, the program counter is advanced
by 2 (mod 2^16) before the opcode handler is dispatched; the handler leaves
the pc alone, and the directive it returns is applied to the advanced pc
exactly as: Next keeps it, Skip adds a further 2, Jump addr sets it to addr
unconditionally, and Stay rewinds it by 2 back to the fetched instruction. -/
theorem tick_pc_protocol (s s2 : Chip8) (d : NextInstruction)
    (hfetch : s.pc + 1 < RAM_SIZE)
    (hdisp : step_dispatch { s with pc := (s.pc + 2) % 65536 }
      (decode_instruction_into_nibbles (s.memory s.pc * 256 + s.memory (s.pc + 1))).1
      (decode_instruction_into_nibbles (s.memory s.pc * 256 + s.memory (s.pc + 1))).2.1
      (decode_instruction_into_nibbles (s.memory s.pc * 256 + s.memory (s.pc + 1))).2.2.1
      (decode_instruction_into_nibbles (s.memory s.pc * 256 + s.memory (s.pc + 1))).2.2.2
      ((s.memory s.pc * 256 + s.memory (s.pc + 1)) &&& 0x00FF)
      ((s.memory s.pc * 256 + s.memory (s.pc + 1)) &&& 0x0FFF) = Except.ok (s2, d)) :
    Chip8.tick s = Except.ok { s2 with pc := applyDirective s2.pc d }
    ∧ s2.pc = (s.pc + 2) % 65536
    ∧ applyDirective s2.pc NextInstruction.Next = (s.pc + 2) % 65536
    ∧ applyDirective s2.pc NextInstruction.Skip = ((s.pc + 2) % 65536 + 2) % 65536
    ∧ (∀ addr, applyDirective s2.pc (NextInstruction.Jump addr) = addr)
    ∧ applyDirective s2.pc NextInstruction.Stay = s.pc := by
  have h4096 : RAM_SIZE = 4096 := rfl
  have hpc2 : s2.pc = (s.pc + 2) % 65536 :=
    step_dispatch_pc _ _ _ _ _ _ _ _ _ hdisp
  have hpc0 : s.pc < RAM_SIZE := by omega
  refine ⟨?_, hpc2, ?_, ?_, ?_, ?_⟩
  · simp only [Chip8.tick]
    rw [if_pos hpc0, if_pos hfetch, hdisp]
  · rw [applyDirective, hpc2]
  · rw [applyDirective, hpc2]
  · intro addr
    rw [applyDirective]
  · rw [applyDirective, hpc2]
    omega

theorem tick_pc_protocol_witness :
    Except.map (fun r => r.pc) (Chip8.tick demo_set_v0) = Except.ok 0x202 := by
  have h := tick_pc_protocol demo_set_v0 _ _ (by decide) rfl
  rw [h.1]
  simp only [Except.map, applyDirective, h.2.1]
  rfl

/-- C3 counterexample: in demo_held_key no key transitioned between the
previous and the current frame (neither policy qualifies any key), yet
executing the key-wait opcode FX0A completes with directive Next and
writes key 5 into V0: completion is level-triggered on the current frame,
not edge-triggered. -/
theorem fx0a_transition_counterexample :
    ((List.range 16).all fun k =>
      !(!demo_held_key.keypad.previous_frame_keys k
          && demo_held_key.keypad.current_frame_keys k)
      && !(demo_held_key.keypad.previous_frame_keys k
          && !demo_held_key.keypad.current_frame_keys k)) = true
    ∧ execute_fx0a demo_held_key 0 =
        Except.ok ({ demo_held_key with v := updf demo_held_key.v 0 5 },
          NextInstruction.Next) := by
  constructor
  · decide
  · rfl

theorem find_range16_first (p : Nat → Bool) (m : Nat) (hm : m < 16)
    (hp : p m = true) (hmin : ∀ k, k < m → p k = false) :
    (List.range 16).find? p = some m := by
  have h16 : List.range 16 = [0, 1, 2, 3, 4, 5, 6, 7, 8, 9, 10, 11, 12, 13, 14, 15] := by
    rfl
  rw [h16]
  interval_cases m <;> simp_all [List.find?]

/-- The dispatch chain sends a decoded (F, x, 0, A) instruction to the
key-wait handler. -/
theorem step_dispatch_fx0a (s : Chip8) (x nn nnn : Nat) :
    step_dispatch s 0xF x 0x0 0xA nn nnn = execute_fx0a s x := by
  unfold step_dispatch
  norm_num

/-- C3 (amended): the key-wait opcode FX0A is level-triggered on the
current frame snapshot: it completes exactly when some key is currently
down, ignoring the previous frame.  (1) With no key down it returns Stay;
(2) with keys down it writes the lowest-index currently-down key into VX
and returns Next, resuming on the next step; (3) a whole step whose fetched
instruction decodes to (F, x, 0, A) with no key down leaves the machine -
in particular the program counter - exactly as it was, so the same
instruction is refetched. -/
theorem fx0a_level_triggered (s : Chip8) (x m : Nat) :
    ((∀ k, k < 16 → s.keypad.current_frame_keys k = false) →
      execute_fx0a s x = Except.ok (s, NextInstruction.Stay))
    ∧ (m < 16 → s.keypad.current_frame_keys m = true →
      (∀ k, k < m → s.keypad.current_frame_keys k = false) →
      execute_fx0a s x =
        Except.ok ({ s with v := updf s.v x m }, NextInstruction.Next))
    ∧ ((∀ k, k < 16 → s.keypad.current_frame_keys k = false) →
      s.pc + 1 < RAM_SIZE →
      decode_instruction_into_nibbles (s.memory s.pc * 256 + s.memory (s.pc + 1))
        = (0xF, x, 0x0, 0xA) →
      Chip8.tick s = Except.ok s) := by
  refine ⟨?_, ?_, ?_⟩
  · intro hnokey
    have hnone : s.keypad.first_pressed_keypress = none := by
      rw [Keypad.first_pressed_keypress, List.find?_eq_none]
      intro k hk
      rw [List.mem_range] at hk
      simp [hnokey k hk]
    rw [execute_fx0a, hnone]
  · intro hm hcur hmin
    have hsome : s.keypad.first_pressed_keypress = some m :=
      find_range16_first _ m hm hcur hmin
    rw [execute_fx0a, hsome]
  · intro hnokey hfetch hdec
    have hnone : s.keypad.first_pressed_keypress = none := by
      rw [Keypad.first_pressed_keypress, List.find?_eq_none]
      intro k hk
      rw [List.mem_range] at hk
      simp [hnokey k hk]
    have h4096 : RAM_SIZE = 4096 := rfl
    have hpc0 : s.pc < RAM_SIZE := by omega
    simp only [Chip8.tick]
    rw [if_pos hpc0, if_pos hfetch, hdec]
    rw [show ((0xF, x, 0x0, 0xA) : Nat × Nat × Nat × Nat).1 = 0xF from rfl,
      show ((0xF, x, 0x0, 0xA) : Nat × Nat × Nat × Nat).2.1 = x from rfl,
      show ((0xF, x, 0x0, 0xA) : Nat × Nat × Nat × Nat).2.2.1 = 0x0 from rfl,
      show ((0xF, x, 0x0, 0xA) : Nat × Nat × Nat × Nat).2.2.2 = 0xA from rfl]
    rw [step_dispatch_fx0a]
    rw [show ({ s with pc := (s.pc + 2) % 65536 } : Chip8).keypad = s.keypad from rfl]
      at hnone ⊢
    rw [execute_fx0a]
    rw [show ({ s with pc := (s.pc + 2) % 65536 } : Chip8).keypad = s.keypad from rfl,
      hnone]
    show Except.ok { s with pc := ((s.pc + 2) % 65536 + 65536 - 2) % 65536 }
      = Except.ok s
    have hx : ((s.pc + 2) % 65536 + 65536 - 2) % 65536 = s.pc := by omega
    rw [hx]

/-- C4: sixteen nested calls succeed (a 2NNN with any stack depth 0..15
pushes); the seventeenth call runs into the ArrayVec capacity panic and a
return on the empty stack runs into the Option unwrap panic - reified here
as the error values capacityOverflow and unwrapNone - instead of the
StackOverflow / StackUnderflow failure values the specification requires
from the step operation (the Rust tick returns unit and has no error
channel at all). -/
theorem stack_faults_are_panics :
    ((List.range 16).all fun k =>
      (execute_2nnn { Chip8.new (fun _ => 0) with stack := List.replicate k 0x200 }
        0x300).isOk) = true
    ∧ execute_2nnn demo_full_stack 0x300 = Except.error Chip8Error.capacityOverflow
    ∧ execute_00ee (Chip8.new fun _ => 0) = Except.error Chip8Error.unwrapNone
    ∧ Chip8.tick { demo_full_stack with
        memory := fun a => if a = 0x200 then 0x23 else 0 }
        = Except.error Chip8Error.capacityOverflow
    ∧ Chip8.tick { Chip8.new (fun _ => 0) with
        memory := fun a => if a = 0x200 then 0x00 else if a = 0x201 then 0xEE else 0 }
        = Except.error Chip8Error.unwrapNone := by
  refine ⟨by decide, rfl, rfl, rfl, rfl⟩

/-- C5: for 8-bit register values, 8XY4 stores (VX + VY) mod 256 in VX with
VF = 1 exactly when the unsigned sum exceeds 255; 8XY5 stores the wrapped
difference VX - VY and 8XY7 the wrapped difference VY - VX, with VF = 0
exactly on borrow and VF = 1 otherwise. -/
theorem arith_carry_borrow_flags (s : Chip8) (x y : Nat) (hxf : x ≠ 0xF)
    (ha : s.v x ≤ 255) (hb : s.v y ≤ 255) :
    (Except.map (fun r => r.1.v x) (execute_8xy4 s x y)
      = Except.ok ((s.v x + s.v y) % 256))
    ∧ (Except.map (fun r => r.1.v 0xF) (execute_8xy4 s x y)
      = Except.ok (if 255 < s.v x + s.v y then 1 else 0))
    ∧ (Except.map (fun r => r.1.v x) (execute_8xy5 s x y)
      = Except.ok ((s.v x + 256 - s.v y) % 256))
    ∧ (Except.map (fun r => r.1.v 0xF) (execute_8xy5 s x y)
      = Except.ok (if s.v x < s.v y then 0 else 1))
    ∧ (Except.map (fun r => r.1.v x) (execute_8xy7 s x y)
      = Except.ok ((s.v y + 256 - s.v x) % 256))
    ∧ (Except.map (fun r => r.1.v 0xF) (execute_8xy7 s x y)
      = Except.ok (if s.v y < s.v x then 0 else 1)) := by
  have hymod : s.v y % 256 = s.v y := Nat.mod_eq_of_lt (by omega)
  have hxmod : s.v x % 256 = s.v x := Nat.mod_eq_of_lt (by omega)
  refine ⟨?_, ?_, ?_, ?_, ?_, ?_⟩
  · simp [execute_8xy4, Except.map, updf, hxf]
  · simp only [execute_8xy4, Except.map, updf, if_pos rfl, Except.ok.injEq]
    by_cases hc : 255 < s.v x + s.v y
    · rw [if_pos (by omega : 256 ≤ s.v x + s.v y), if_pos hc]
      simp
    · rw [if_neg (by omega : ¬256 ≤ s.v x + s.v y), if_neg hc]
      simp
  · simp [execute_8xy5, Except.map, updf, hxf, hymod]
  · simp [execute_8xy5, Except.map, updf]
  · simp [execute_8xy7, Except.map, updf, hxf, hxmod]
  · simp [execute_8xy7, Except.map, updf]

theorem arith_carry_borrow_flags_witness :
    Except.map (fun r => r.1.v 1) (execute_8xy4 demo_regs 1 2) = Except.ok 44
    ∧ Except.map (fun r => r.1.v 0xF) (execute_8xy4 demo_regs 1 2) = Except.ok 1
    ∧ Except.map (fun r => r.1.v 1) (execute_8xy5 demo_regs 1 2) = Except.ok 100
    ∧ Except.map (fun r => r.1.v 0xF) (execute_8xy5 demo_regs 1 2) = Except.ok 1
    ∧ Except.map (fun r => r.1.v 1) (execute_8xy7 demo_regs 1 2) = Except.ok 156
    ∧ Except.map (fun r => r.1.v 0xF) (execute_8xy7 demo_regs 1 2) = Except.ok 0 := by
  have h := arith_carry_borrow_flags demo_regs 1 2 (by decide) (by decide) (by decide)
  exact ⟨h.1, h.2.1, h.2.2.1, h.2.2.2.1, h.2.2.2.2.1, h.2.2.2.2.2⟩

/-- C6: the shift opcodes first copy the source register VY into VX and
then shift VX (right for 8XY6 with the shifted-out bit 0 into VF, left for
8XYE with the shifted-out bit 7 into VF); the result never depends on the
prior value of VX. -/
theorem shift_copies_source (s : Chip8) (x y : Nat) (hxf : x ≠ 0xF)
    (hy : s.v y ≤ 255) :
    (Except.map (fun r => r.1.v x) (execute_8xy6 s x y)
      = Except.ok (s.v y >>> 1))
    ∧ (Except.map (fun r => r.1.v 0xF) (execute_8xy6 s x y)
      = Except.ok (s.v y % 2))
    ∧ (Except.map (fun r => r.1.v x) (execute_8xye s x y)
      = Except.ok ((s.v y <<< 1) % 256))
    ∧ (Except.map (fun r => r.1.v 0xF) (execute_8xye s x y)
      = Except.ok (s.v y / 128))
    ∧ (x ≠ y → ∀ w, Except.map (fun r => r.1.v x)
        (execute_8xy6 { s with v := updf s.v x w } x y)
      = Except.ok (s.v y >>> 1))
    ∧ (x ≠ y → ∀ w, Except.map (fun r => r.1.v x)
        (execute_8xye { s with v := updf s.v x w } x y)
      = Except.ok ((s.v y <<< 1) % 256)) := by
  have hbit0 : s.v y &&& 0x1 = s.v y % 2 := Nat.and_one_is_mod _
  have hbit7 : (s.v y >>> 7) &&& 0x1 = s.v y / 128 := by
    rw [Nat.and_one_is_mod, Nat.shiftRight_eq_div_pow]
    show s.v y / 128 % 2 = s.v y / 128
    omega
  refine ⟨?_, ?_, ?_, ?_, ?_, ?_⟩
  · simp [execute_8xy6, Except.map, updf, hxf]
  · simp [execute_8xy6, Except.map, updf, hbit0]
  · simp [execute_8xye, Except.map, updf, hxf]
  · simp [execute_8xye, Except.map, updf, hbit7]
  · intro hxy w
    simp [execute_8xy6, Except.map, updf, hxf, Ne.symm hxy]
  · intro hxy w
    simp [execute_8xye, Except.map, updf, hxf, Ne.symm hxy]

theorem shift_copies_source_witness :
    Except.map (fun r => r.1.v 1) (execute_8xy6 demo_regs 1 2) = Except.ok 50
    ∧ Except.map (fun r => r.1.v 0xF) (execute_8xy6 demo_regs 1 2) = Except.ok 0
    ∧ Except.map (fun r => r.1.v 1) (execute_8xye demo_regs 1 2) = Except.ok 200
    ∧ Except.map (fun r => r.1.v 0xF) (execute_8xye demo_regs 1 2) = Except.ok 0
    ∧ Except.map (fun r => r.1.v 1)
        (execute_8xy6 { demo_regs with v := updf demo_regs.v 1 99 } 1 2)
      = Except.ok 50 := by
  have h := shift_copies_source demo_regs 1 2 (by decide) (by decide)
  exact ⟨h.1, h.2.1, h.2.2.1, h.2.2.2.1, h.2.2.2.2.1 (by decide) 99⟩

/-- C7: a block-transfer opcode (FX55, FX65, FX33) or the draw opcode whose
memory range reaches RAM_SIZE runs into the Rust index/slice panic -
reified here as indexOutOfBounds - rather than returning the explicit
MemoryRangeOutOfBounds failure value the specification requires (no such
value exists in the code; tick returns unit). -/
theorem memory_range_faults_are_panics :
    execute_fx55 demo_oob_i 2 = Except.error Chip8Error.indexOutOfBounds
    ∧ execute_fx65 demo_oob_i 2 = Except.error Chip8Error.indexOutOfBounds
    ∧ execute_fx33 demo_oob_i 0 = Except.error Chip8Error.indexOutOfBounds
    ∧ execute_dxyn { demo_oob_i with i := 4095 } 0 0 2
        = Except.error Chip8Error.indexOutOfBounds
    ∧ Chip8.tick { demo_oob_i with
        memory := fun a => if a = 0x200 then 0xF2 else if a = 0x201 then 0x55 else 0 }
        = Except.error Chip8Error.indexOutOfBounds := by
  refine ⟨rfl, rfl, rfl, rfl, rfl⟩

/-- C8: load_rom copies the rom bytes into memory starting at 0x200 and
leaves the rest (the font area included) alone; the largest fitting rom
(4096 - 0x200 = 3584 bytes) loads, while one byte more runs into the Rust
slice panic - reified as indexOutOfBounds - instead of returning the
explicit RomTooLarge failure value the specification requires (no such
value exists; the Rust load_rom returns unit). -/
theorem load_rom_copies_and_panics_when_too_large :
    (Except.map (fun m => m.memory 0x200) (Chip8.load_rom (Chip8.new fun _ => 0) [0xAB, 0xCD])
      = Except.ok 0xAB)
    ∧ (Except.map (fun m => m.memory 0x201) (Chip8.load_rom (Chip8.new fun _ => 0) [0xAB, 0xCD])
      = Except.ok 0xCD)
    ∧ (Except.map (fun m => m.memory 0x202) (Chip8.load_rom (Chip8.new fun _ => 0) [0xAB, 0xCD])
      = Except.ok 0)
    ∧ (Except.map (fun m => m.memory 0x50) (Chip8.load_rom (Chip8.new fun _ => 0) [0xAB, 0xCD])
      = Except.ok 0xF0)
    ∧ (Chip8.load_rom (Chip8.new fun _ => 0) (List.replicate 3584 7)).isOk = true
    ∧ Chip8.load_rom (Chip8.new fun _ => 0) (List.replicate 3585 7)
        = Except.error Chip8Error.indexOutOfBounds := by
  refine ⟨rfl, rfl, rfl, rfl, ?_, ?_⟩
  · simp only [Chip8.load_rom, List.length_replicate]
    rw [if_pos (by decide : 0x200 + 3584 ≤ RAM_SIZE)]
    rfl
  · simp only [Chip8.load_rom, List.length_replicate]
    rw [if_neg (by decide : ¬0x200 + 3585 ≤ RAM_SIZE)]

/-- C9: FX33 writes the three decimal digits of VX (hundreds, tens, units)
to memory at I, I+1, I+2, and additionally advances the index register I by
X + 1, where X is the operand register index - so the advance amount
depends only on the register index, not on the bytes written. -/
theorem fx33_bcd_and_index_side_effect (s : Chip8) (x : Nat)
    (hok : s.i + 3 ≤ RAM_SIZE) :
    execute_fx33 s x =
      Except.ok ({ s with
          memory := fun a =>
            if a = s.i then s.v x / 100
            else if a = s.i + 1 then s.v x / 10 % 10
            else if a = s.i + 2 then s.v x % 10
            else s.memory a,
          i := s.i + x + 1 }, NextInstruction.Next) := by
  simp only [execute_fx33, convert_to_binary_coded_decimal]
  rw [if_pos hok]
  congr 1
  congr 1
  congr 1
  funext a
  by_cases h1 : a = s.i
  · rw [if_pos h1, if_pos h1]
    omega
  · rw [if_neg h1, if_neg h1]
    by_cases h2 : a = s.i + 1
    · rw [if_pos h2, if_pos h2]
      omega
    · rw [if_neg h2, if_neg h2]

theorem fx33_witness :
    demo_bcd.i + 3 ≤ RAM_SIZE
    ∧ Except.map (fun r => r.1.memory 0x300) (execute_fx33 demo_bcd 3) = Except.ok 1
    ∧ Except.map (fun r => r.1.memory 0x301) (execute_fx33 demo_bcd 3) = Except.ok 4
    ∧ Except.map (fun r => r.1.memory 0x302) (execute_fx33 demo_bcd 3) = Except.ok 6
    ∧ Except.map (fun r => r.1.i) (execute_fx33 demo_bcd 3) = Except.ok 0x304 := by
  have h := fx33_bcd_and_index_side_effect demo_bcd 3 (by decide)
  refine ⟨by decide, ?_, ?_, ?_, ?_⟩ <;> rw [h] <;> rfl

/-- C10: the key-skip opcodes EX9E and EXA1 index the 16-entry current
frame keypad array with the full 8-bit value of VX; the access succeeds
exactly when VX is at most 0xF, and any state whose tested register
exceeds 15 makes it out of bounds (the Rust index panic, reified as the
indexOutOfBounds error). -/
theorem keypad_skip_index_bounds (s : Chip8) (x : Nat) :
    (s.v x ≤ 0xF →
      execute_ex9e s x = Except.ok (s,
        NextInstruction.skip_if (s.keypad.current_frame_keys (s.v x)))
      ∧ execute_exa1 s x = Except.ok (s,
        NextInstruction.skip_if (!(s.keypad.current_frame_keys (s.v x)))))
    ∧ (0xF < s.v x →
      execute_ex9e s x = Except.error Chip8Error.indexOutOfBounds
      ∧ execute_exa1 s x = Except.error Chip8Error.indexOutOfBounds) := by
  constructor
  · intro hle
    constructor
    · rw [execute_ex9e, if_pos (by omega : s.v x < 16)]
    · rw [execute_exa1, if_pos (by omega : s.v x < 16)]
  · intro hgt
    constructor
    · rw [execute_ex9e, if_neg (by omega : ¬s.v x < 16)]
    · rw [execute_exa1, if_neg (by omega : ¬s.v x < 16)]

theorem keypad_skip_index_bounds_witness :
    demo_big_v1.v 2 ≤ 0xF
    ∧ execute_ex9e demo_big_v1 2 = Except.ok (demo_big_v1,
        NextInstruction.skip_if (demo_big_v1.keypad.current_frame_keys (demo_big_v1.v 2)))
    ∧ 0xF < demo_big_v1.v 1
    ∧ execute_ex9e demo_big_v1 1 = Except.error Chip8Error.indexOutOfBounds
    ∧ execute_exa1 demo_big_v1 1 = Except.error Chip8Error.indexOutOfBounds := by
  refine ⟨by decide, ((keypad_skip_index_bounds demo_big_v1 2).1 (by decide)).1,
    by decide, ((keypad_skip_index_bounds demo_big_v1 1).2 (by decide)).1,
    ((keypad_skip_index_bounds demo_big_v1 1).2 (by decide)).2⟩

theorem dxyn_draw_correct_witness :
    (∀ c, c < min (demo_draw.v 0 % 32 + 1) 32 - demo_draw.v 0 % 32 →
      demo_draw.i + c < RAM_SIZE)
    ∧ Except.map
        (fun r => (r.1.v 0xF, r.1.screen 0, r.1.screen 1, r.1.screen 4,
          r.1.should_redraw))
        (execute_dxyn demo_draw 0 0 1)
      = Except.ok (0, true, true, false, true) := by
  have hmem : ∀ c, c < min (demo_draw.v 0 % 32 + 1) 32 - demo_draw.v 0 % 32 →
      demo_draw.i + c < RAM_SIZE := by
    intro c hc
    have h1 : demo_draw.v 0 % 32 = 0 := rfl
    rw [h1] at hc
    have h2 : demo_draw.i = 0x50 := rfl
    rw [h2]
    have h3 : RAM_SIZE = 4096 := rfl
    rw [h3]
    omega
  refine ⟨hmem, ?_⟩
  rw [dxyn_draw_correct demo_draw 0 0 1 hmem]
  rfl

theorem fx0a_level_triggered_witness :
    execute_fx0a (Chip8.new fun _ => 0) 0
      = Except.ok (Chip8.new fun _ => 0, NextInstruction.Stay)
    ∧ execute_fx0a demo_held_key 1
      = Except.ok ({ demo_held_key with v := updf demo_held_key.v 1 5 },
          NextInstruction.Next)
    ∧ Chip8.tick demo_wait_fx0a = Except.ok demo_wait_fx0a := by
  refine ⟨(fx0a_level_triggered (Chip8.new fun _ => 0) 0 0).1 (fun k hk => rfl),
    (fx0a_level_triggered demo_held_key 1 5).2.1 (by decide) (by decide)
      (fun k hk => beq_eq_false_iff_ne.mpr (by omega)),
    (fx0a_level_triggered demo_wait_fx0a 1 0).2.2 (fun k hk => rfl) (by decide)
      (by decide)⟩
